import Mathlib

/-!
Verification of the Nova Defense missile-defence simulation (src/src/App.tsx).

The simulation core of the game is shallowly embedded below:
JavaScript numbers are modelled as rationals (ℚ) for coordinates, radii,
speeds, progress and timers, and as integers (ℤ) for the score and ammo
counts; wave counters are naturals.  The random identity tokens attached to
entities (Math.random().toString(36)) play no role in the simulation and are
omitted; the randomness used by spawnRocket (spawn column and target choice)
is passed in explicitly as a SpawnChoice.  One invocation of the per-frame
callback `loop` is modelled by `tick`, restricted to its simulation part
(the canvas-drawing tail of `loop` is presentation only).  The 2000ms wave
timeout is modelled by a pending flag plus the function `waveTimeoutFire`,
the body of the setTimeout callback.
-/

/-! ## Constants (App.tsx lines 12-27) -/

def GAME_WIDTH : ℚ := 800
def GAME_HEIGHT : ℚ := 600
def WIN_SCORE : ℤ := 5000
def POINTS_PER_KILL : ℤ := 20
def AMMO_BONUS : ℤ := 2
def CITY_BONUS : ℤ := 100

/-! ## Entity types (App.tsx lines 29-77) -/

structure Rocket where
  x : ℚ
  y : ℚ
  startX : ℚ
  startY : ℚ
  targetX : ℚ
  targetY : ℚ
  speed : ℚ
  progress : ℚ
  active : Bool
deriving DecidableEq

structure Missile where
  x : ℚ
  y : ℚ
  startX : ℚ
  startY : ℚ
  targetX : ℚ
  targetY : ℚ
  speed : ℚ
  progress : ℚ
  active : Bool
deriving DecidableEq

structure Explosion where
  x : ℚ
  y : ℚ
  radius : ℚ
  maxRadius : ℚ
  growing : Bool
  active : Bool
deriving DecidableEq

structure Turret where
  id : ℕ
  x : ℚ
  y : ℚ
  ammo : ℤ
  maxAmmo : ℤ
  destroyed : Bool
deriving DecidableEq

structure City where
  id : ℕ
  x : ℚ
  y : ℚ
  destroyed : Bool
deriving DecidableEq

inductive GameState
  | START
  | PLAYING
  | WON
  | LOST
deriving DecidableEq

inductive Difficulty
  | EASY
  | NORMAL
  | HARD
deriving DecidableEq

open GameState Difficulty

/-- The mutable session state of App.tsx: the useState values together with
the refs that the loop reads and writes (score, wave, entity collections,
spawn bookkeeping).  waveTimeoutPending models waveTimeoutRef holding a
scheduled (not yet fired) timeout. -/
structure GameSession where
  gameState : GameState
  score : ℤ
  wave : ℕ
  difficulty : Difficulty
  isWaveTransition : Bool
  rockets : List Rocket
  missiles : List Missile
  explosions : List Explosion
  turrets : List Turret
  cities : List City
  spawnTimer : ℚ
  rocketsSpawnedInWave : ℕ
  totalRocketsInWave : ℕ
  waveTimeoutPending : Bool
deriving DecidableEq

/-- The randomness consumed by one spawnRocket call: the random start column
(Math.random() * GAME_WIDTH) and the random index into the target list
(Math.floor(Math.random() * targets.length), modelled modulo the length). -/
structure SpawnChoice where
  startX : ℚ
  targetIdx : ℕ
deriving DecidableEq

/-! ## Initial state (App.tsx lines 19-27 and 160-202, initGame) -/

def TURRET_CONFIGS : List Turret :=
  [⟨0, 50, GAME_HEIGHT - 30, 20, 20, false⟩,
   ⟨1, 225, GAME_HEIGHT - 30, 20, 20, false⟩,
   ⟨2, 400, GAME_HEIGHT - 30, 40, 40, false⟩,
   ⟨3, 575, GAME_HEIGHT - 30, 20, 20, false⟩,
   ⟨4, 750, GAME_HEIGHT - 30, 20, 20, false⟩]

def CITY_POSITIONS : List ℚ := [135, 310, 490, 665]

def initCities : List City :=
  [⟨0, 135, GAME_HEIGHT - 20, false⟩, ⟨1, 310, GAME_HEIGHT - 20, false⟩,
   ⟨2, 490, GAME_HEIGHT - 20, false⟩, ⟨3, 665, GAME_HEIGHT - 20, false⟩]

def baseRockets : Difficulty → ℕ
  | EASY => 10
  | NORMAL => 15
  | HARD => 20

def initGame (d : Difficulty) : GameSession :=
  { gameState := PLAYING
    score := 0
    wave := 1
    difficulty := d
    isWaveTransition := false
    rockets := []
    missiles := []
    explosions := []
    turrets := TURRET_CONFIGS
    cities := initCities
    spawnTimer := 0
    rocketsSpawnedInWave := 0
    totalRocketsInWave := baseRockets d
    waveTimeoutPending := false }

/-! ## startNextWave (App.tsx lines 204-233) -/

/-- The turret forEach of startNextWave: each surviving turret adds
ammo * AMMO_BONUS to the score and is refilled to maxAmmo. -/
def refillTurrets : List Turret → ℤ → List Turret × ℤ
  | [], sc => ([], sc)
  | t :: ts, sc =>
    if t.destroyed then
      let r := refillTurrets ts sc
      (t :: r.1, r.2)
    else
      let r := refillTurrets ts (sc + t.ammo * AMMO_BONUS)
      ({ t with ammo := t.maxAmmo } :: r.1, r.2)

/-- The city forEach of startNextWave: each surviving city adds CITY_BONUS. -/
def cityBonuses : List City → ℤ → ℤ
  | [], sc => sc
  | c :: cs, sc => cityBonuses cs (if c.destroyed then sc else sc + CITY_BONUS)

def waveIncrement : Difficulty → ℕ
  | EASY => 5
  | NORMAL => 8
  | HARD => 12

def startNextWave (s : GameSession) : GameSession :=
  let r := refillTurrets s.turrets s.score
  let sc := cityBonuses s.cities r.2
  { s with
    turrets := r.1
    score := sc
    wave := s.wave + 1
    rocketsSpawnedInWave := 0
    totalRocketsInWave := s.totalRocketsInWave + waveIncrement s.difficulty
    isWaveTransition := false }

/-- Body of the setTimeout callback scheduled on wave completion
(App.tsx lines 329-334): wave advancement runs only if the session is
still PLAYING when the 2000ms delay elapses; the timer handle is cleared
either way. -/
def waveTimeoutFire (s : GameSession) : GameSession :=
  let s1 := if s.gameState = PLAYING then startNextWave s else s
  { s1 with waveTimeoutPending := false }

/-- The wave-transition delay in milliseconds (App.tsx line 334). -/
def WAVE_DELAY_MS : ℚ := 2000

/-! ## fireMissile (App.tsx lines 235-267) -/

/-- A turret may fire iff it is not destroyed and has ammo left. -/
def eligibleT (t : Turret) : Prop := t.destroyed = false ∧ 0 < t.ammo

instance (t : Turret) : Decidable (eligibleT t) := by
  unfold eligibleT
  infer_instance

/-- The turret-selection forEach of fireMissile: scan left to right keeping
the index and distance of the best turret so far; a later turret replaces
the incumbent only when its horizontal distance is strictly smaller
(dist < minDist in the source, with minDist starting at Infinity). -/
def scanBest (tx : ℚ) : List Turret → ℕ → Option (ℕ × ℚ) → Option (ℕ × ℚ)
  | [], _, best => best
  | t :: ts, i, best =>
    if eligibleT t then
      match best with
      | none => scanBest tx ts (i + 1) (some (i, |t.x - tx|))
      | some (j, bd) =>
        if |t.x - tx| < bd then scanBest tx ts (i + 1) (some (i, |t.x - tx|))
        else scanBest tx ts (i + 1) (some (j, bd))
    else scanBest tx ts (i + 1) best

def bestTurretIdx (tx : ℚ) (ts : List Turret) : Option ℕ :=
  (scanBest tx ts 0 none).map (fun p => p.1)

/-- The interceptor pushed by fireMissile (App.tsx lines 254-265). -/
def mkMissile (t : Turret) (tx ty : ℚ) : Missile :=
  { x := t.x, y := t.y, startX := t.x, startY := t.y,
    targetX := tx, targetY := ty, speed := 1/25, progress := 0, active := true }

def fireMissile (tx ty : ℚ) (s : GameSession) : GameSession :=
  if s.gameState ≠ PLAYING ∨ s.isWaveTransition = true then s
  else
    match bestTurretIdx tx s.turrets with
    | none => s
    | some i =>
      match s.turrets[i]? with
      | none => s
      | some t =>
        { s with
          turrets := s.turrets.set i { t with ammo := t.ammo - 1 }
          missiles := s.missiles ++ [mkMissile t tx ty] }

/-! ## spawnRocket (App.tsx lines 269-293) -/

def difficultySpeedModifier : Difficulty → ℚ
  | EASY => 7/10
  | NORMAL => 1
  | HARD => 13/10

/-- The rocket pushed by spawnRocket, with speed
(baseSpeed + wave * waveScaling) * speedModifier
= (0.0015 + wave * 0.00015) * modifier. -/
def mkRocket (startX : ℚ) (target : ℚ × ℚ) (wave : ℕ) (d : Difficulty) : Rocket :=
  { x := startX, y := 0, startX := startX, startY := 0,
    targetX := target.1, targetY := target.2,
    speed := (3/2000 + (wave : ℚ) * (3/20000)) * difficultySpeedModifier d,
    progress := 0, active := true }

def spawnRocket (ch : SpawnChoice) (s : GameSession) : GameSession :=
  let targets :=
    (s.cities.filter (fun c => c.destroyed = false)).map (fun c => (c.x, c.y)) ++
    (s.turrets.filter (fun t => t.destroyed = false)).map (fun t => (t.x, t.y))
  match targets with
  | [] => s
  | p :: ps =>
    let tgt := (p :: ps).getD (ch.targetIdx % (p :: ps).length) p
    { s with rockets := s.rockets ++ [mkRocket ch.startX tgt s.wave s.difficulty] }

/-! ## Spawning and wave completion (App.tsx lines 312-336) -/

def difficultyIntervalModifier : Difficulty → ℚ
  | EASY => 6/5
  | NORMAL => 1
  | HARD => 4/5

def spawnInterval (wave : ℕ) (d : Difficulty) : ℚ :=
  max 400 ((1500 - (wave : ℚ) * 100) * difficultyIntervalModifier d)

/-- The block of loop guarded by !isWaveTransitionRef.current: advance the
spawn timer, spawn a rocket when the timer exceeds the interval and the wave
quota is not yet met, and enter the wave transition (scheduling the timeout)
when the quota is met and no rockets remain on the field. -/
def spawnPhase (dt : ℚ) (ch : SpawnChoice) (s : GameSession) : GameSession :=
  if s.isWaveTransition = true then s
  else
    let s1 := { s with spawnTimer := s.spawnTimer + dt }
    let s2 :=
      if s1.spawnTimer > spawnInterval s1.wave s1.difficulty ∧
          s1.rocketsSpawnedInWave < s1.totalRocketsInWave then
        { spawnRocket ch s1 with
          rocketsSpawnedInWave := s1.rocketsSpawnedInWave + 1
          spawnTimer := 0 }
      else s1
    if s2.rocketsSpawnedInWave ≥ s2.totalRocketsInWave ∧ s2.rockets.length = 0 then
      { s2 with isWaveTransition := true, waveTimeoutPending := true }
    else s2

/-! ## Kinematics and impacts (App.tsx lines 338-383) -/

/-- Advance a rocket by one frame: progress += speed * (dt / 16) and the
position is recomputed as the linear interpolation from start to target at
the new progress. -/
def advanceRocket (dt : ℚ) (r : Rocket) : Rocket :=
  let p := r.progress + r.speed * (dt / 16)
  { r with
    progress := p
    x := r.startX + (r.targetX - r.startX) * p
    y := r.startY + (r.targetY - r.startY) * p }

/-- citiesRef.current.find(c => c.x === rocket.targetX && c.y === rocket.targetY):
mark the first city whose stored position equals the target destroyed. -/
def markCityAt (tx ty : ℚ) : List City → List City
  | [] => []
  | c :: cs =>
    if c.x = tx ∧ c.y = ty then { c with destroyed := true } :: cs
    else c :: markCityAt tx ty cs

/-- Same for turrets. -/
def markTurretAt (tx ty : ℚ) : List Turret → List Turret
  | [] => []
  | t :: ts =>
    if t.x = tx ∧ t.y = ty then { t with destroyed := true } :: ts
    else t :: markTurretAt tx ty ts

/-- The impact explosion pushed when a rocket lands (App.tsx lines 353-361):
centered at the rocket position, maxRadius 30.  (The source pushes it after
setting active = false on the rocket; only x and y are read, so the active
flag of the argument is irrelevant.) -/
def impactExplosion (r : Rocket) : Explosion :=
  { x := r.x, y := r.y, radius := 0, maxRadius := 30, growing := true, active := true }

/-- One step of the rocket forEach: advance, and deactivate on progress ≥ 1. -/
def stepRocket (dt : ℚ) (r : Rocket) : Rocket :=
  let r1 := advanceRocket dt r
  if 1 ≤ r1.progress then { r1 with active := false } else r1

/-- The rocket forEach of loop, threading the city list, turret list and
explosion list through the per-rocket impact effects in iteration order.
Returns (rockets, cities, turrets, explosions). -/
def updateRockets (dt : ℚ) :
    List Rocket → List City → List Turret → List Explosion →
    List Rocket × List City × List Turret × List Explosion
  | [], cs, ts, es => ([], cs, ts, es)
  | r :: rs, cs, ts, es =>
    let r1 := advanceRocket dt r
    if 1 ≤ r1.progress then
      let out := updateRockets dt rs (markCityAt r1.targetX r1.targetY cs)
        (markTurretAt r1.targetX r1.targetY ts) (es ++ [impactExplosion r1])
      ({ r1 with active := false } :: out.1, out.2.1, out.2.2.1, out.2.2.2)
    else
      let out := updateRockets dt rs cs ts es
      (r1 :: out.1, out.2.1, out.2.2.1, out.2.2.2)

def advanceMissile (dt : ℚ) (m : Missile) : Missile :=
  let p := m.progress + m.speed * (dt / 16)
  { m with
    progress := p
    x := m.startX + (m.targetX - m.startX) * p
    y := m.startY + (m.targetY - m.startY) * p }

/-- The explosion pushed when an interceptor arrives (App.tsx lines 373-381):
centered at the missile target, maxRadius 50. -/
def missileExplosion (m : Missile) : Explosion :=
  { x := m.targetX, y := m.targetY, radius := 0, maxRadius := 50,
    growing := true, active := true }

def stepMissile (dt : ℚ) (m : Missile) : Missile :=
  let m1 := advanceMissile dt m
  if 1 ≤ m1.progress then { m1 with active := false } else m1

/-- The missile forEach of loop.  Returns (missiles, explosions). -/
def updateMissiles (dt : ℚ) :
    List Missile → List Explosion → List Missile × List Explosion
  | [], es => ([], es)
  | m :: ms, es =>
    let m1 := advanceMissile dt m
    if 1 ≤ m1.progress then
      let out := updateMissiles dt ms (es ++ [missileExplosion m1])
      ({ m1 with active := false } :: out.1, out.2)
    else
      let out := updateMissiles dt ms es
      (m1 :: out.1, out.2)

/-! ## Explosions and collision resolution (App.tsx lines 385-418) -/

/-- The radius update of an explosion (App.tsx lines 386-393): while growing
the radius grows by 2 per 16ms and the growing flag is cleared on reaching
maxRadius; afterwards it shrinks by 1 per 16ms and the explosion is
deactivated once the radius is ≤ 0. -/
def updateExplosionRadius (dt : ℚ) (e : Explosion) : Explosion :=
  if e.growing then
    let rad := e.radius + 2 * (dt / 16)
    if rad ≥ e.maxRadius then { e with radius := rad, growing := false }
    else { e with radius := rad }
  else
    let rad := e.radius - 1 * (dt / 16)
    if rad ≤ 0 then { e with radius := rad, active := false }
    else { e with radius := rad }

/-- The collision test dist < exp.radius where
dist = Math.sqrt(dx*dx + dy*dy).  Over ℚ: since the square root is
nonnegative, the test is false whenever radius ≤ 0, and for radius > 0 it
is equivalent to dx² + dy² < radius². -/
def rocketHit (e : Explosion) (r : Rocket) : Prop :=
  0 < e.radius ∧ (r.x - e.x) * (r.x - e.x) + (r.y - e.y) * (r.y - e.y) < e.radius * e.radius

instance (e : Explosion) (r : Rocket) : Decidable (rocketHit e r) := by
  unfold rocketHit
  infer_instance

/-- The chain explosion spawned when an explosion destroys a rocket
(App.tsx lines 406-414): centered at the rocket position, maxRadius 40. -/
def chainExplosion (r : Rocket) : Explosion :=
  { x := r.x, y := r.y, radius := 0, maxRadius := 40, growing := true, active := true }

/-- The inner rocket forEach of the explosion update: each still-active
rocket strictly inside the (already updated) explosion is deactivated,
scores POINTS_PER_KILL, and spawns a chain explosion.
Returns (rockets, score, chain explosions pushed by this explosion). -/
def collideRockets (e : Explosion) : List Rocket → ℤ → List Rocket × ℤ × List Explosion
  | [], sc => ([], sc, [])
  | r :: rs, sc =>
    if r.active = true ∧ rocketHit e r then
      let out := collideRockets e rs (sc + POINTS_PER_KILL)
      ({ r with active := false } :: out.1, out.2.1, chainExplosion r :: out.2.2)
    else
      let out := collideRockets e rs sc
      (r :: out.1, out.2.1, out.2.2)

/-- The explosion forEach of loop.  JavaScript forEach does not visit
elements appended during the iteration, so the chain explosions pushed while
iterating are collected separately and appended at the end; the rockets and
the score are threaded through the per-explosion collision pass in order.
Returns (updated explosions, rockets, score, chain explosions). -/
def updateExplosions (dt : ℚ) :
    List Explosion → List Rocket → ℤ →
    List Explosion × List Rocket × ℤ × List Explosion
  | [], rk, sc => ([], rk, sc, [])
  | e :: es, rk, sc =>
    let e1 := updateExplosionRadius dt e
    let c := collideRockets e1 rk sc
    let out := updateExplosions dt es c.1 c.2.1
    (e1 :: out.1, out.2.1, out.2.2.1, c.2.2 ++ out.2.2.2)

/-! ## Whole-tick assembly (App.tsx lines 307-433) -/

/-- Phases 2-5 of loop: rocket kinematics and impacts, missile kinematics
and detonations, explosion update with collision resolution, and the
end-of-tick cleanup filters. -/
def physicsPhase (dt : ℚ) (s : GameSession) : GameSession :=
  let rres := updateRockets dt s.rockets s.cities s.turrets s.explosions
  let mres := updateMissiles dt s.missiles rres.2.2.2
  let eres := updateExplosions dt mres.2 rres.1 s.score
  { s with
    rockets := eres.2.1.filter (fun r => r.active)
    missiles := mres.1.filter (fun m => m.active)
    explosions := (eres.1 ++ eres.2.2.2).filter (fun e => e.active)
    cities := rres.2.1
    turrets := rres.2.2.1
    score := eres.2.2.1 }

/-- The end-of-tick status check (App.tsx lines 426-433): the WON check runs
first, then the LOST check runs unconditionally after it. -/
def winLossCheck (s : GameSession) : GameSession :=
  let s1 := if WIN_SCORE ≤ s.score then { s with gameState := WON } else s
  if s1.turrets.all (fun t => t.destroyed) then { s1 with gameState := LOST } else s1

/-- One invocation of the frame callback loop, simulation part only. -/
def tick (dt : ℚ) (ch : SpawnChoice) (s : GameSession) : GameSession :=
  winLossCheck (physicsPhase dt (spawnPhase dt ch s))

/-! ## Derived definitions used in statements and proofs -/

/-- The effect of one (already radius-updated) explosion on one rocket in
the collision pass: deactivate it when it is active and strictly inside. -/
def hitMap (e : Explosion) (r : Rocket) : Rocket :=
  if r.active = true ∧ rocketHit e r then { r with active := false } else r

/-- The cumulative effect of the whole explosion pass on one rocket. -/
def applyHitsOne (es : List Explosion) (r : Rocket) : Rocket :=
  es.foldl (fun r e => hitMap e r) r

/-- Total ammo held by non-destroyed turrets. -/
def survivingAmmoSum : List Turret → ℤ
  | [] => 0
  | t :: ts => (if t.destroyed then 0 else t.ammo) + survivingAmmoSum ts

/-- Number of non-destroyed cities. -/
def survivingCityCount : List City → ℤ
  | [] => 0
  | c :: cs => (if c.destroyed then 0 else 1) + survivingCityCount cs

/-- No eligible turret occurs in l. -/
def BestInvNone (l : List Turret) : Prop := ∀ t ∈ l, ¬ eligibleT t

/-- Position i of l holds an eligible turret at horizontal distance d from
the target, no eligible turret of l is strictly closer, and every eligible
turret strictly before position i is strictly farther (the strict comparison
of the scan keeps the earliest minimum). -/
def BestInvSome (tx : ℚ) (l : List Turret) (i : ℕ) (d : ℚ) : Prop :=
  ∃ t, l[i]? = some t ∧ eligibleT t ∧ d = |t.x - tx| ∧
    (∀ (j : ℕ) (t2 : Turret), l[j]? = some t2 → eligibleT t2 → d ≤ |t2.x - tx|) ∧
    (∀ (j : ℕ) (t2 : Turret), j < i → l[j]? = some t2 → eligibleT t2 → d < |t2.x - tx|)

/-- Invariant of the turret-selection scan after processing the prefix l. -/
def BestInv (tx : ℚ) (l : List Turret) (best : Option (ℕ × ℚ)) : Prop :=
  match best with
  | none => BestInvNone l
  | some (i, d) => BestInvSome tx l i d


/-! ## Concrete states used as test inputs -/

def chDefault : SpawnChoice := ⟨0, 0⟩

/-- A rocket one frame away from landing exactly on the last turret. -/
def rocketA : Rocket :=
  { x := 750, y := 513, startX := 750, startY := 0, targetX := 750, targetY := 570,
    speed := 1/10, progress := 9/10, active := true }

/-- A rocket sitting in the middle of an active explosion. -/
def rocketB : Rocket :=
  { x := 100, y := 100, startX := 100, startY := 0, targetX := 100, targetY := 200,
    speed := 1/100, progress := 1/2, active := true }

/-- A rocket one frame away from landing exactly on the first city. -/
def rocketCity : Rocket :=
  { x := 135, y := 522, startX := 135, startY := 0, targetX := 135, targetY := 580,
    speed := 1/10, progress := 9/10, active := true }

/-- A session at score 4980 whose tick destroys the last turret by impact
and reaches the win threshold by an explosion kill in the same frame. -/
def sessionSimul : GameSession :=
  { gameState := PLAYING
    score := 4980
    wave := 1
    difficulty := NORMAL
    isWaveTransition := false
    rockets := [rocketA, rocketB]
    missiles := []
    explosions := [⟨100, 102, 30, 50, true, true⟩]
    turrets := [⟨0, 50, 570, 20, 20, true⟩, ⟨1, 225, 570, 20, 20, true⟩,
                ⟨2, 400, 570, 40, 40, true⟩, ⟨3, 575, 570, 20, 20, true⟩,
                ⟨4, 750, 570, 20, 20, false⟩]
    cities := initCities
    spawnTimer := 0
    rocketsSpawnedInWave := 15
    totalRocketsInWave := 15
    waveTimeoutPending := false }

/-- A session that meets its wave quota with an empty field this tick,
with a surviving turret holding partial ammo. -/
def sessionQuotaMet : GameSession :=
  { initGame NORMAL with
    rocketsSpawnedInWave := 15
    turrets := [⟨0, 50, 570, 5, 20, false⟩, ⟨1, 225, 570, 20, 20, false⟩,
                ⟨2, 400, 570, 40, 40, false⟩, ⟨3, 575, 570, 20, 20, false⟩,
                ⟨4, 750, 570, 20, 20, false⟩] }

/-- A finished (WON) session with a wave timeout still pending. -/
def sessionWonIdle : GameSession :=
  { initGame NORMAL with
    gameState := WON
    isWaveTransition := true
    waveTimeoutPending := true
    rocketsSpawnedInWave := 15 }

/-- A PLAYING session in wave transition with the timeout pending. -/
def sessionPlayTransition : GameSession :=
  { initGame NORMAL with
    isWaveTransition := true
    waveTimeoutPending := true
    rocketsSpawnedInWave := 15 }

/-- A fresh session whose spawn timer is about to exceed the interval. -/
def sessionSpawnReady : GameSession :=
  { initGame NORMAL with spawnTimer := 1390 }

/-- Two eligible turrets horizontally equidistant from x = 300. -/
def tieTurrets : List Turret :=
  [⟨0, 225, 570, 20, 20, false⟩, ⟨1, 375, 570, 20, 20, false⟩]

/-! ## Lemmas: turret selection -/

lemma getElem?_singleton_cases {α : Type} {t t2 : α} {k : ℕ}
    (h : [t][k]? = some t2) : t2 = t := by
  cases k with
  | zero => simpa using h.symm
  | succ n => simp at h

lemma getElem?_isLt {α : Type} {l : List α} {i : ℕ} {a : α}
    (h : l[i]? = some a) : i < l.length := by
  by_contra hcon
  rw [List.getElem?_eq_none (Nat.le_of_not_lt hcon)] at h
  exact Option.noConfusion h

lemma bestInv_extend_inelig (tx : ℚ) (pre : List Turret) (t : Turret)
    (ht : ¬ eligibleT t) (best : Option (ℕ × ℚ)) (h : BestInv tx pre best) :
    BestInv tx (pre ++ [t]) best := by
  cases best with
  | none =>
    intro x hx
    rcases List.mem_append.mp hx with hx | hx
    · exact h x hx
    · rw [List.mem_singleton.mp hx]
      exact ht
  | some p =>
    obtain ⟨i, d⟩ := p
    obtain ⟨u, hu, huel, hd, hle, hlt⟩ := h
    have hi : i < pre.length := getElem?_isLt hu
    refine ⟨u, by rw [List.getElem?_append_left hi]; exact hu, huel, hd, ?_, ?_⟩
    · intro j t2 hj hel2
      by_cases hjl : j < pre.length
      · rw [List.getElem?_append_left hjl] at hj
        exact hle j t2 hj hel2
      · rw [List.getElem?_append_right (Nat.le_of_not_lt hjl)] at hj
        rw [getElem?_singleton_cases hj] at hel2
        exact absurd hel2 ht
    · intro j t2 hji hj hel2
      have hjl : j < pre.length := Nat.lt_trans hji hi
      rw [List.getElem?_append_left hjl] at hj
      exact hlt j t2 hji hj hel2

lemma bestInv_extend_elig_none (tx : ℚ) (pre : List Turret) (t : Turret)
    (ht : eligibleT t) (h : BestInv tx pre none) :
    BestInv tx (pre ++ [t]) (some (pre.length, |t.x - tx|)) := by
  refine ⟨t, List.getElem?_concat_length pre t, ht, rfl, ?_, ?_⟩
  · intro j t2 hj hel2
    by_cases hjl : j < pre.length
    · rw [List.getElem?_append_left hjl] at hj
      exact absurd hel2 (h t2 (List.getElem?_mem hj))
    · rw [List.getElem?_append_right (Nat.le_of_not_lt hjl)] at hj
      rw [getElem?_singleton_cases hj]
  · intro j t2 hji hj hel2
    have hjl : j < pre.length := hji
    rw [List.getElem?_append_left hjl] at hj
    exact absurd hel2 (h t2 (List.getElem?_mem hj))

lemma bestInv_extend_elig_better (tx : ℚ) (pre : List Turret) (t : Turret)
    (j : ℕ) (bd : ℚ) (ht : eligibleT t) (hcmp : |t.x - tx| < bd)
    (h : BestInv tx pre (some (j, bd))) :
    BestInv tx (pre ++ [t]) (some (pre.length, |t.x - tx|)) := by
  obtain ⟨u, hu, huel, hd, hle, hlt⟩ := h
  refine ⟨t, List.getElem?_concat_length pre t, ht, rfl, ?_, ?_⟩
  · intro k t2 hk hel2
    by_cases hkl : k < pre.length
    · rw [List.getElem?_append_left hkl] at hk
      exact le_of_lt (lt_of_lt_of_le hcmp (hle k t2 hk hel2))
    · rw [List.getElem?_append_right (Nat.le_of_not_lt hkl)] at hk
      rw [getElem?_singleton_cases hk]
  · intro k t2 hki hk hel2
    rw [List.getElem?_append_left hki] at hk
    exact lt_of_lt_of_le hcmp (hle k t2 hk hel2)

lemma bestInv_extend_elig_keep (tx : ℚ) (pre : List Turret) (t : Turret)
    (j : ℕ) (bd : ℚ) (_ht : eligibleT t) (hcmp : ¬ |t.x - tx| < bd)
    (h : BestInv tx pre (some (j, bd))) :
    BestInv tx (pre ++ [t]) (some (j, bd)) := by
  obtain ⟨u, hu, huel, hd, hle, hlt⟩ := h
  have hj : j < pre.length := getElem?_isLt hu
  refine ⟨u, by rw [List.getElem?_append_left hj]; exact hu, huel, hd, ?_, ?_⟩
  · intro k t2 hk hel2
    by_cases hkl : k < pre.length
    · rw [List.getElem?_append_left hkl] at hk
      exact hle k t2 hk hel2
    · rw [List.getElem?_append_right (Nat.le_of_not_lt hkl)] at hk
      rw [getElem?_singleton_cases hk]
      rw [hd]
      exact hd ▸ le_of_not_lt hcmp
  · intro k t2 hkj hk hel2
    have hkl : k < pre.length := Nat.lt_trans hkj hj
    rw [List.getElem?_append_left hkl] at hk
    exact hlt k t2 hkj hk hel2

lemma scanBest_inv (tx : ℚ) :
    ∀ (ts pre : List Turret) (best : Option (ℕ × ℚ)),
      BestInv tx pre best →
      BestInv tx (pre ++ ts) (scanBest tx ts pre.length best)
  | [], pre, best, h => by
    simpa [scanBest] using h
  | t :: ts, pre, best, h => by
    have key : ∀ best2, BestInv tx (pre ++ [t]) best2 →
        BestInv tx (pre ++ t :: ts) (scanBest tx ts (pre.length + 1) best2) := by
      intro best2 h2
      have h3 := scanBest_inv tx ts (pre ++ [t]) best2 h2
      rw [List.length_append, List.length_singleton] at h3
      rw [List.append_assoc] at h3
      simpa using h3
    by_cases helig : eligibleT t
    · cases best with
      | none =>
        simp only [scanBest, if_pos helig]
        exact key _ (bestInv_extend_elig_none tx pre t helig h)
      | some p =>
        obtain ⟨j, bd⟩ := p
        by_cases hcmp : |t.x - tx| < bd
        · simp only [scanBest, if_pos helig, if_pos hcmp]
          exact key _ (bestInv_extend_elig_better tx pre t j bd helig hcmp h)
        · simp only [scanBest, if_pos helig, if_neg hcmp]
          exact key _ (bestInv_extend_elig_keep tx pre t j bd helig hcmp h)
    · simp only [scanBest, if_neg helig]
      exact key _ (bestInv_extend_inelig tx pre t helig best h)

lemma bestTurretIdx_inv (tx : ℚ) (ts : List Turret) :
    BestInv tx ts (scanBest tx ts 0 none) := by
  have h := scanBest_inv tx ts [] none (by intro t ht; cases ht)
  simpa using h

lemma bestTurretIdx_spec_none (tx : ℚ) (ts : List Turret)
    (h : bestTurretIdx tx ts = none) : ∀ t ∈ ts, ¬ eligibleT t := by
  have hinv := bestTurretIdx_inv tx ts
  unfold bestTurretIdx at h
  cases hs : scanBest tx ts 0 none with
  | none =>
    rw [hs] at hinv
    exact hinv
  | some p =>
    rw [hs] at h
    simp at h

lemma bestTurretIdx_spec_some (tx : ℚ) (ts : List Turret) (i : ℕ)
    (h : bestTurretIdx tx ts = some i) :
    ∃ t, ts[i]? = some t ∧ eligibleT t ∧
      (∀ (j : ℕ) (t2 : Turret), ts[j]? = some t2 → eligibleT t2 →
        |t.x - tx| ≤ |t2.x - tx|) ∧
      (∀ (j : ℕ) (t2 : Turret), j < i → ts[j]? = some t2 → eligibleT t2 →
        |t.x - tx| < |t2.x - tx|) := by
  have hinv := bestTurretIdx_inv tx ts
  unfold bestTurretIdx at h
  cases hs : scanBest tx ts 0 none with
  | none =>
    rw [hs] at h
    simp at h
  | some p =>
    obtain ⟨i2, d⟩ := p
    rw [hs] at h hinv
    simp only [Option.map_some'] at h
    obtain rfl : i2 = i := Option.some.inj h
    obtain ⟨t, ht, htel, hd, hle, hlt⟩ := hinv
    subst hd
    exact ⟨t, ht, htel, hle, hlt⟩

lemma bestTurretIdx_isSome_of_elig (tx : ℚ) (ts : List Turret)
    (h : ∃ t ∈ ts, eligibleT t) : ∃ i, bestTurretIdx tx ts = some i := by
  cases hb : bestTurretIdx tx ts with
  | none =>
    obtain ⟨t, htm, htel⟩ := h
    exact absurd htel (bestTurretIdx_spec_none tx ts hb t htm)
  | some i => exact ⟨i, rfl⟩

/-! ## Lemmas: wave bonuses and wave advancement -/

lemma refillTurrets_fst (ts : List Turret) (sc : ℤ) :
    (refillTurrets ts sc).1 =
      ts.map (fun t => if t.destroyed then t else { t with ammo := t.maxAmmo }) := by
  induction ts generalizing sc with
  | nil => rfl
  | cons t ts ih =>
    by_cases hd : t.destroyed
    · simp [refillTurrets, hd, ih]
    · simp [refillTurrets, hd, ih]

lemma refillTurrets_snd (ts : List Turret) (sc : ℤ) :
    (refillTurrets ts sc).2 = sc + AMMO_BONUS * survivingAmmoSum ts := by
  induction ts generalizing sc with
  | nil => simp [refillTurrets, survivingAmmoSum]
  | cons t ts ih =>
    simp only [refillTurrets, survivingAmmoSum]
    by_cases hd : t.destroyed
    · rw [if_pos hd, if_pos hd]
      simp [ih]
    · rw [if_neg hd, if_neg hd]
      simp only [ih]
      ring

lemma cityBonuses_eq (cs : List City) (sc : ℤ) :
    cityBonuses cs sc = sc + CITY_BONUS * survivingCityCount cs := by
  induction cs generalizing sc with
  | nil => simp [cityBonuses, survivingCityCount]
  | cons c cs ih =>
    simp only [cityBonuses, survivingCityCount]
    by_cases hd : c.destroyed
    · rw [if_pos hd, if_pos hd]
      simp [ih]
    · rw [if_neg hd, if_neg hd]
      rw [ih]
      ring

/-! ## Lemmas: the spawn phase -/

lemma spawnPhase_of_transition (dt : ℚ) (ch : SpawnChoice) (s : GameSession)
    (h : s.isWaveTransition = true) : spawnPhase dt ch s = s := by
  unfold spawnPhase
  rw [if_pos h]

lemma spawnRocket_keeps (ch : SpawnChoice) (s : GameSession) :
    (spawnRocket ch s).score = s.score ∧ (spawnRocket ch s).turrets = s.turrets ∧
    (spawnRocket ch s).cities = s.cities ∧
    (spawnRocket ch s).isWaveTransition = s.isWaveTransition ∧
    (spawnRocket ch s).explosions = s.explosions ∧
    (spawnRocket ch s).missiles = s.missiles := by
  unfold spawnRocket
  cases h : ((s.cities.filter (fun c => c.destroyed = false)).map (fun c => (c.x, c.y)) ++
      (s.turrets.filter (fun t => t.destroyed = false)).map (fun t => (t.x, t.y))) with
  | nil => exact ⟨rfl, rfl, rfl, rfl, rfl, rfl⟩
  | cons p ps => exact ⟨rfl, rfl, rfl, rfl, rfl, rfl⟩

/-! ## Claim theorems -/

/-- C6: when the 2000ms wave-transition delay elapses, wave advancement
(wave + 1, spawned count reset, quota increased by the difficulty increment,
transition flag cleared) applies only if the session is still PLAYING; a
session that left PLAYING during the delay is not mutated by the stale timer
(only the dead timer handle is dropped). -/
theorem c6_stale_timer (s : GameSession) :
    (s.gameState ≠ PLAYING →
      waveTimeoutFire s = { s with waveTimeoutPending := false }) ∧
    (s.gameState = PLAYING →
      (waveTimeoutFire s).wave = s.wave + 1 ∧
      (waveTimeoutFire s).rocketsSpawnedInWave = 0 ∧
      (waveTimeoutFire s).totalRocketsInWave = s.totalRocketsInWave +
        (match s.difficulty with | EASY => 5 | NORMAL => 8 | HARD => 12) ∧
      (waveTimeoutFire s).isWaveTransition = false) := by
  constructor
  · intro h
    simp [waveTimeoutFire, h]
  · intro h
    refine ⟨?_, ?_, ?_, ?_⟩
    · simp [waveTimeoutFire, h, startNextWave]
    · simp [waveTimeoutFire, h, startNextWave]
    · simp only [waveTimeoutFire, h, if_pos, startNextWave]
      cases s.difficulty <;> simp [waveIncrement]
    · simp [waveTimeoutFire, h, startNextWave]

theorem c6_stale_timer_witness :
    (waveTimeoutFire sessionWonIdle = { sessionWonIdle with waveTimeoutPending := false }) ∧
    (waveTimeoutFire sessionPlayTransition).wave = sessionPlayTransition.wave + 1 ∧
    (waveTimeoutFire sessionPlayTransition).isWaveTransition = false :=
  ⟨(c6_stale_timer sessionWonIdle).1 (by simp [sessionWonIdle, initGame]),
   ((c6_stale_timer sessionPlayTransition).2 (by simp [sessionPlayTransition, initGame])).1,
   ((c6_stale_timer sessionPlayTransition).2 (by simp [sessionPlayTransition, initGame])).2.2.2⟩

/-- C7: the fire command is a no-op unless the state is PLAYING, the session
is not in wave transition, and an eligible (non-destroyed, ammo > 0) turret
exists; when those hold it decrements by exactly one the ammo of the
eligible turret at minimum horizontal distance from the target x and appends
exactly one interceptor starting at that turret and aimed at the target. -/
theorem c7_fire_command (tx ty : ℚ) (s : GameSession) :
    ((s.gameState ≠ PLAYING ∨ s.isWaveTransition = true) → fireMissile tx ty s = s) ∧
    ((∀ t ∈ s.turrets, ¬ eligibleT t) → fireMissile tx ty s = s) ∧
    (s.gameState = PLAYING → s.isWaveTransition = false →
      (∃ t ∈ s.turrets, eligibleT t) →
      ∃ i t, s.turrets[i]? = some t ∧ eligibleT t ∧
        (∀ (j : ℕ) (t2 : Turret), s.turrets[j]? = some t2 → eligibleT t2 →
          |t.x - tx| ≤ |t2.x - tx|) ∧
        (fireMissile tx ty s).turrets = s.turrets.set i { t with ammo := t.ammo - 1 } ∧
        (fireMissile tx ty s).missiles = s.missiles ++ [mkMissile t tx ty] ∧
        (mkMissile t tx ty).startX = t.x ∧ (mkMissile t tx ty).startY = t.y ∧
        (mkMissile t tx ty).targetX = tx ∧ (mkMissile t tx ty).targetY = ty) := by
  refine ⟨?_, ?_, ?_⟩
  · intro h
    unfold fireMissile
    rw [if_pos h]
  · intro h
    by_cases hg : s.gameState ≠ PLAYING ∨ s.isWaveTransition = true
    · unfold fireMissile
      rw [if_pos hg]
    · unfold fireMissile
      rw [if_neg hg]
      cases hb : bestTurretIdx tx s.turrets with
      | none => rfl
      | some i =>
        obtain ⟨t, hti, htel, _, _⟩ := bestTurretIdx_spec_some tx s.turrets i hb
        exact absurd htel (h t (List.getElem?_mem hti))
  · intro h1 h2 helig
    have hg : ¬ (s.gameState ≠ PLAYING ∨ s.isWaveTransition = true) := by
      simp [h1, h2]
    obtain ⟨i, hb⟩ := bestTurretIdx_isSome_of_elig tx s.turrets helig
    obtain ⟨t, hti, htel, hle, _⟩ := bestTurretIdx_spec_some tx s.turrets i hb
    refine ⟨i, t, hti, htel, hle, ?_, ?_, rfl, rfl, rfl, rfl⟩
    · simp only [fireMissile, if_neg hg, hb, hti]
    · simp only [fireMissile, if_neg hg, hb, hti]

theorem c7_fire_command_witness :
    (sessionWonIdle.gameState ≠ PLAYING ∨ sessionWonIdle.isWaveTransition = true) ∧
    fireMissile 300 200 sessionWonIdle = sessionWonIdle := by
  have h : sessionWonIdle.gameState ≠ PLAYING ∨ sessionWonIdle.isWaveTransition = true := by
    left
    simp [sessionWonIdle, initGame]
  exact ⟨h, (c7_fire_command 300 200 sessionWonIdle).1 h⟩

/-- C10: when several eligible turrets are at the same minimum horizontal
distance from the target x, the strict comparison of the scan selects the
one with the lowest roster index: the selected turret is eligible, no
eligible turret is strictly closer, and every eligible turret at a strictly
earlier index is strictly farther. -/
theorem c10_tiebreak (tx : ℚ) (ts : List Turret) (i : ℕ)
    (h : bestTurretIdx tx ts = some i) :
    ∃ t, ts[i]? = some t ∧ t.destroyed = false ∧ 0 < t.ammo ∧
      (∀ (j : ℕ) (t2 : Turret), ts[j]? = some t2 → t2.destroyed = false →
        0 < t2.ammo → |t.x - tx| ≤ |t2.x - tx|) ∧
      (∀ (j : ℕ) (t2 : Turret), j < i → ts[j]? = some t2 → t2.destroyed = false →
        0 < t2.ammo → |t.x - tx| < |t2.x - tx|) := by
  obtain ⟨t, hti, htel, hle, hlt⟩ := bestTurretIdx_spec_some tx ts i h
  exact ⟨t, hti, htel.1, htel.2,
    fun j t2 hj hd ha => hle j t2 hj ⟨hd, ha⟩,
    fun j t2 hji hj hd ha => hlt j t2 hji hj ⟨hd, ha⟩⟩

theorem c10_tiebreak_witness :
    bestTurretIdx 300 tieTurrets = some 0 ∧
    ∃ t, tieTurrets[0]? = some t ∧ t.destroyed = false ∧ 0 < t.ammo ∧
      (∀ (j : ℕ) (t2 : Turret), tieTurrets[j]? = some t2 → t2.destroyed = false →
        0 < t2.ammo → |t.x - 300| ≤ |t2.x - 300|) ∧
      (∀ (j : ℕ) (t2 : Turret), j < 0 → tieTurrets[j]? = some t2 → t2.destroyed = false →
        0 < t2.ammo → |t.x - 300| < |t2.x - 300|) := by
  have h : bestTurretIdx 300 tieTurrets = some 0 := by
    norm_num [bestTurretIdx, scanBest, tieTurrets, eligibleT]
  exact ⟨h, c10_tiebreak 300 tieTurrets 0 h⟩

lemma spawnPhase_no_spawn_rockets (dt : ℚ) (ch : SpawnChoice) (s : GameSession)
    (htr : ¬ s.isWaveTransition = true)
    (hc : ¬ (s.spawnTimer + dt > spawnInterval s.wave s.difficulty ∧
        s.rocketsSpawnedInWave < s.totalRocketsInWave)) :
    (spawnPhase dt ch s).rockets = s.rockets := by
  simp only [spawnPhase]
  rw [if_neg htr, if_neg hc]
  split
  · rfl
  · rfl

/-- C9: a new incoming projectile is appended only when the session is not
in wave transition, the accumulated time since the last spawn (the spawn
timer after adding this frame's dt) strictly exceeds
max(400, (1500 − wave·100) · f) with f = 1.2 / 1.0 / 0.8 for easy / normal
/ hard, and the number of rockets spawned this wave is strictly below the
wave quota. -/
theorem c9_spawn_conditions (dt : ℚ) (ch : SpawnChoice) (s : GameSession)
    (h : s.rockets.length < (spawnPhase dt ch s).rockets.length) :
    s.isWaveTransition = false ∧
    max 400 ((1500 - (s.wave : ℚ) * 100) *
      (match s.difficulty with | EASY => 6/5 | NORMAL => 1 | HARD => 4/5)) <
      s.spawnTimer + dt ∧
    s.rocketsSpawnedInWave < s.totalRocketsInWave := by
  by_cases htr : s.isWaveTransition = true
  · rw [spawnPhase_of_transition dt ch s htr] at h
    exact absurd h (lt_irrefl _)
  · have htrf : s.isWaveTransition = false := by
      cases hh : s.isWaveTransition
      · rfl
      · exact absurd hh htr
    by_cases hc : s.spawnTimer + dt > spawnInterval s.wave s.difficulty ∧
        s.rocketsSpawnedInWave < s.totalRocketsInWave
    · refine ⟨htrf, ?_, hc.2⟩
      have h1 := hc.1
      rw [spawnInterval] at h1
      cases hdiff : s.difficulty <;> rw [hdiff] at h1 <;>
        simpa [difficultyIntervalModifier] using h1
    · rw [spawnPhase_no_spawn_rockets dt ch s htr hc] at h
      exact absurd h (lt_irrefl _)

theorem c9_spawn_conditions_witness :
    sessionSpawnReady.rockets.length <
      (spawnPhase 16 chDefault sessionSpawnReady).rockets.length ∧
    sessionSpawnReady.isWaveTransition = false ∧
    max 400 ((1500 - (sessionSpawnReady.wave : ℚ) * 100) *
      (match sessionSpawnReady.difficulty with
       | EASY => 6/5 | NORMAL => 1 | HARD => 4/5)) <
      sessionSpawnReady.spawnTimer + 16 ∧
    sessionSpawnReady.rocketsSpawnedInWave < sessionSpawnReady.totalRocketsInWave := by
  have h : sessionSpawnReady.rockets.length <
      (spawnPhase 16 chDefault sessionSpawnReady).rockets.length := by
    norm_num [spawnPhase, sessionSpawnReady, initGame, spawnInterval,
      difficultyIntervalModifier, spawnRocket, initCities, TURRET_CONFIGS,
      GAME_HEIGHT, mkRocket, difficultySpeedModifier, chDefault, baseRockets,
      max_def, List.getD]
  exact ⟨h, c9_spawn_conditions 16 chDefault sessionSpawnReady h⟩

/-! ## Lemmas: the end-of-tick status check -/

lemma winLossCheck_turrets (s : GameSession) : (winLossCheck s).turrets = s.turrets := by
  unfold winLossCheck
  by_cases hw : WIN_SCORE ≤ s.score
  · simp only [if_pos hw]
    split <;> rfl
  · simp only [if_neg hw]
    split <;> rfl

lemma winLossCheck_lost (s : GameSession)
    (h : (s.turrets.all (fun t => t.destroyed)) = true) :
    (winLossCheck s).gameState = LOST := by
  unfold winLossCheck
  by_cases hw : WIN_SCORE ≤ s.score
  · simp only [if_pos hw]
    have h2 : (({ s with gameState := WON } : GameSession).turrets.all
        (fun t => t.destroyed)) = true := h
    rw [if_pos h2]
  · simp only [if_neg hw]
    rw [if_pos h]

/-- C1 is false of the code: in the tick in which the score reaches the win
threshold and the last turret is destroyed at the same time, the loss
assignment runs after the win assignment and overwrites it, so the session
ends the tick in LOST, not WON as claimed. -/
theorem c1_counterexample :
    WIN_SCORE ≤ (tick 16 chDefault sessionSimul).score ∧
    ((tick 16 chDefault sessionSimul).turrets.all (fun t => t.destroyed)) = true ∧
    (tick 16 chDefault sessionSimul).gameState = LOST ∧
    ¬ (tick 16 chDefault sessionSimul).gameState = WON := by
  have h : WIN_SCORE ≤ (tick 16 chDefault sessionSimul).score ∧
      ((tick 16 chDefault sessionSimul).turrets.all (fun t => t.destroyed)) = true ∧
      (tick 16 chDefault sessionSimul).gameState = LOST := by
    norm_num [tick, spawnPhase, physicsPhase, winLossCheck, updateRockets,
      updateMissiles, updateExplosions, advanceRocket, markCityAt,
      markTurretAt, impactExplosion, collideRockets, updateExplosionRadius,
      rocketHit, chainExplosion, spawnInterval, difficultyIntervalModifier,
      sessionSimul, rocketA, rocketB, initCities, chDefault, WIN_SCORE,
      POINTS_PER_KILL, GAME_HEIGHT]
  refine ⟨h.1, h.2.1, h.2.2, ?_⟩
  rw [h.2.2]
  decide

/-- C1 (amended): if at the end of a tick the cumulative score has reached
the win threshold and every turret is destroyed, the session ends that tick
in LOST: the loss check runs last and overrides WON. -/
theorem c1_amended (dt : ℚ) (ch : SpawnChoice) (s : GameSession)
    (h : ((tick dt ch s).turrets.all (fun t => t.destroyed)) = true) :
    (tick dt ch s).gameState = LOST := by
  unfold tick at h ⊢
  rw [winLossCheck_turrets] at h
  exact winLossCheck_lost _ h

theorem c1_amended_witness :
    ((tick 16 chDefault sessionSimul).turrets.all (fun t => t.destroyed)) = true ∧
    (tick 16 chDefault sessionSimul).gameState = LOST :=
  ⟨by norm_num [tick, spawnPhase, physicsPhase, winLossCheck, updateRockets,
      updateMissiles, updateExplosions, advanceRocket, markCityAt,
      markTurretAt, impactExplosion, collideRockets, updateExplosionRadius,
      rocketHit, chainExplosion, spawnInterval, difficultyIntervalModifier,
      sessionSimul, rocketA, rocketB, initCities, chDefault, WIN_SCORE,
      POINTS_PER_KILL, GAME_HEIGHT],
   c1_amended 16 chDefault sessionSimul
    (by norm_num [tick, spawnPhase, physicsPhase, winLossCheck, updateRockets,
      updateMissiles, updateExplosions, advanceRocket, markCityAt,
      markTurretAt, impactExplosion, collideRockets, updateExplosionRadius,
      rocketHit, chainExplosion, spawnInterval, difficultyIntervalModifier,
      sessionSimul, rocketA, rocketB, initCities, chDefault, WIN_SCORE,
      POINTS_PER_KILL, GAME_HEIGHT])⟩

/-- C2 is false of the code: on the tick in which the wave quota is met and
no incoming projectile remains, the transition flag is set and the timeout
scheduled, but no bonus is awarded at entry: the score stays 0 and the
turret roster (including the surviving turret 0 with 5 of 20 ammo, which
the claim says is refilled and worth 10 points immediately) is unchanged — 
the bonuses of startNextWave only run when the 2000ms timeout fires. -/
theorem c2_counterexample :
    (tick 16 chDefault sessionQuotaMet).isWaveTransition = true ∧
    (tick 16 chDefault sessionQuotaMet).waveTimeoutPending = true ∧
    (tick 16 chDefault sessionQuotaMet).score = 0 ∧
    (tick 16 chDefault sessionQuotaMet).turrets = sessionQuotaMet.turrets ∧
    sessionQuotaMet.turrets[0]? = some ⟨0, 50, 570, 5, 20, false⟩ ∧
    survivingAmmoSum sessionQuotaMet.turrets = 105 ∧
    survivingCityCount sessionQuotaMet.cities = 4 := by
  norm_num [tick, spawnPhase, physicsPhase, winLossCheck, updateRockets,
    updateMissiles, updateExplosions, sessionQuotaMet, initGame,
    spawnInterval, difficultyIntervalModifier, chDefault, WIN_SCORE,
    baseRockets, initCities, GAME_HEIGHT, survivingAmmoSum,
    survivingCityCount, TURRET_CONFIGS]

/-- C2 (amended): the TRANSITIONING phase is entered exactly once (the
whole completion check is skipped while the transition flag is set), and
the bonuses are awarded when the 2000ms delay elapses rather than at entry:
startNextWave adds ammo × ammo-bonus for every surviving turret and refills
it to maximum ammo, and adds the fixed city bonus for every surviving city,
each exactly once per transition. -/
theorem c2_amended :
    (∀ (dt : ℚ) (ch : SpawnChoice) (s : GameSession), s.isWaveTransition = true →
      spawnPhase dt ch s = s) ∧
    (∀ (dt : ℚ) (ch : SpawnChoice) (s : GameSession),
      s.isWaveTransition = false →
      s.totalRocketsInWave ≤ s.rocketsSpawnedInWave →
      s.rockets = [] →
      (spawnPhase dt ch s).isWaveTransition = true ∧
      (spawnPhase dt ch s).waveTimeoutPending = true ∧
      (spawnPhase dt ch s).score = s.score ∧
      (spawnPhase dt ch s).turrets = s.turrets) ∧
    (∀ s : GameSession,
      (startNextWave s).score =
        s.score + AMMO_BONUS * survivingAmmoSum s.turrets +
          CITY_BONUS * survivingCityCount s.cities ∧
      (startNextWave s).turrets =
        s.turrets.map (fun t => if t.destroyed then t else { t with ammo := t.maxAmmo })) := by
  refine ⟨?_, ?_, ?_⟩
  · intro dt ch s htr
    exact spawnPhase_of_transition dt ch s htr
  · intro dt ch s htr hq hrk
    have hcond : ¬ (s.spawnTimer + dt > spawnInterval s.wave s.difficulty ∧
        s.rocketsSpawnedInWave < s.totalRocketsInWave) := by
      rintro ⟨-, hlt2⟩
      exact absurd hlt2 (not_lt.mpr hq)
    have hpos : s.rocketsSpawnedInWave ≥ s.totalRocketsInWave ∧
        s.rockets.length = 0 := by
      refine ⟨hq, ?_⟩
      rw [hrk]
      rfl
    simp only [spawnPhase]
    rw [if_neg (by simp [htr]), if_neg hcond, if_pos hpos]
    exact ⟨rfl, rfl, rfl, rfl⟩
  · intro s
    constructor
    · show cityBonuses s.cities (refillTurrets s.turrets s.score).2 = _
      rw [refillTurrets_snd, cityBonuses_eq]
    · show (refillTurrets s.turrets s.score).1 = _
      rw [refillTurrets_fst]

theorem c2_amended_witness :
    spawnPhase 16 chDefault sessionWonIdle = sessionWonIdle ∧
    (spawnPhase 16 chDefault sessionQuotaMet).isWaveTransition = true ∧
    (spawnPhase 16 chDefault sessionQuotaMet).score = sessionQuotaMet.score ∧
    (startNextWave sessionQuotaMet).score =
      sessionQuotaMet.score + AMMO_BONUS * survivingAmmoSum sessionQuotaMet.turrets +
        CITY_BONUS * survivingCityCount sessionQuotaMet.cities := by
  refine ⟨c2_amended.1 16 chDefault sessionWonIdle (by simp [sessionWonIdle, initGame]),
    ?_, ?_, (c2_amended.2.2 sessionQuotaMet).1⟩
  · exact (c2_amended.2.1 16 chDefault sessionQuotaMet
      (by simp [sessionQuotaMet, initGame])
      (by simp [sessionQuotaMet, initGame, baseRockets])
      (by simp [sessionQuotaMet, initGame])).1
  · exact (c2_amended.2.1 16 chDefault sessionQuotaMet
      (by simp [sessionQuotaMet, initGame])
      (by simp [sessionQuotaMet, initGame, baseRockets])
      (by simp [sessionQuotaMet, initGame])).2.2.1

/-! ## Lemmas: the per-rocket effect of one explosion -/

lemma hitMap_pos (e : Explosion) (r : Rocket) (h : r.active = true ∧ rocketHit e r) :
    hitMap e r = { r with active := false } := by
  unfold hitMap
  rw [if_pos h]

lemma hitMap_neg (e : Explosion) (r : Rocket) (h : ¬ (r.active = true ∧ rocketHit e r)) :
    hitMap e r = r := by
  unfold hitMap
  rw [if_neg h]

lemma hitMap_cases (e : Explosion) (r : Rocket) :
    hitMap e r = r ∨ hitMap e r = { r with active := false } := by
  unfold hitMap
  split
  · right
    rfl
  · left
    rfl

lemma hitMap_x (e : Explosion) (r : Rocket) : (hitMap e r).x = r.x := by
  rcases hitMap_cases e r with h | h <;> rw [h]

lemma hitMap_y (e : Explosion) (r : Rocket) : (hitMap e r).y = r.y := by
  rcases hitMap_cases e r with h | h <;> rw [h]

lemma hitMap_progress (e : Explosion) (r : Rocket) : (hitMap e r).progress = r.progress := by
  rcases hitMap_cases e r with h | h <;> rw [h]

lemma hitMap_active_mono (e : Explosion) (r : Rocket) :
    (hitMap e r).active = true → r.active = true := by
  rcases hitMap_cases e r with h | h <;> rw [h]
  · exact fun h2 => h2
  · intro h2
    exact absurd h2 (by simp)

lemma hitMap_inactive (e : Explosion) (r : Rocket) (h : r.active = false) :
    hitMap e r = r := by
  apply hitMap_neg
  rintro ⟨ha, -⟩
  rw [h] at ha
  exact Bool.false_ne_true ha

lemma hitMap_no_hit_of_active (e : Explosion) (r : Rocket)
    (h : (hitMap e r).active = true) : ¬ rocketHit e r := by
  intro hhit
  have hra : r.active = true := hitMap_active_mono e r h
  rw [hitMap_pos e r ⟨hra, hhit⟩] at h
  exact absurd h (by simp)

lemma applyHitsOne_nil (r : Rocket) : applyHitsOne [] r = r := rfl

lemma applyHitsOne_cons (e : Explosion) (es : List Explosion) (r : Rocket) :
    applyHitsOne (e :: es) r = applyHitsOne es (hitMap e r) := rfl

lemma applyHitsOne_x (es : List Explosion) (r : Rocket) : (applyHitsOne es r).x = r.x := by
  induction es generalizing r with
  | nil => rfl
  | cons e es ih => rw [applyHitsOne_cons, ih, hitMap_x]

lemma applyHitsOne_y (es : List Explosion) (r : Rocket) : (applyHitsOne es r).y = r.y := by
  induction es generalizing r with
  | nil => rfl
  | cons e es ih => rw [applyHitsOne_cons, ih, hitMap_y]

lemma applyHitsOne_progress (es : List Explosion) (r : Rocket) :
    (applyHitsOne es r).progress = r.progress := by
  induction es generalizing r with
  | nil => rfl
  | cons e es ih => rw [applyHitsOne_cons, ih, hitMap_progress]

lemma applyHitsOne_active_mono (es : List Explosion) (r : Rocket) :
    (applyHitsOne es r).active = true → r.active = true := by
  induction es generalizing r with
  | nil => exact fun h => h
  | cons e es ih =>
    rw [applyHitsOne_cons]
    intro h
    exact hitMap_active_mono e r (ih (hitMap e r) h)

lemma applyHitsOne_inactive (es : List Explosion) (r : Rocket) (h : r.active = false) :
    applyHitsOne es r = r := by
  induction es generalizing r with
  | nil => rfl
  | cons e es ih =>
    rw [applyHitsOne_cons, hitMap_inactive e r h, ih r h]

lemma applyHitsOne_cases (es : List Explosion) (r : Rocket) :
    applyHitsOne es r = r ∨ applyHitsOne es r = { r with active := false } := by
  induction es generalizing r with
  | nil => exact Or.inl rfl
  | cons e es ih =>
    rw [applyHitsOne_cons]
    rcases hitMap_cases e r with h | h
    · rw [h]
      exact ih r
    · rw [h]
      rcases ih { r with active := false } with h2 | h2
      · rw [h2]
        exact Or.inr rfl
      · rw [h2]
        exact Or.inr rfl

lemma applyHitsOne_not_hit (es : List Explosion) (r : Rocket)
    (h : (applyHitsOne es r).active = true) : ∀ e ∈ es, ¬ rocketHit e r := by
  induction es generalizing r with
  | nil =>
    intro e he
    cases he
  | cons e2 es ih =>
    rw [applyHitsOne_cons] at h
    intro e he
    rcases List.mem_cons.mp he with rfl | he2
    · exact hitMap_no_hit_of_active e r (applyHitsOne_active_mono es _ h)
    · have h3 := ih (hitMap e2 r) h e he2
      unfold rocketHit at h3 ⊢
      rw [hitMap_x, hitMap_y] at h3
      exact h3

/-! ## Lemmas: counting destroyed rockets -/

lemma countP_split {α : Type} (l : List α) (p q pr : α → Bool)
    (h : ∀ a ∈ l, pr a = true ↔ (p a = true ∨ q a = true))
    (hdisj : ∀ a ∈ l, ¬ (p a = true ∧ q a = true)) :
    l.countP pr = l.countP p + l.countP q := by
  induction l with
  | nil => simp
  | cons a l ih =>
    rw [List.countP_cons, List.countP_cons, List.countP_cons,
      ih (fun b hb => h b (List.mem_cons_of_mem a hb))
        (fun b hb => hdisj b (List.mem_cons_of_mem a hb))]
    have ha := h a (List.mem_cons_self a l)
    have hda := hdisj a (List.mem_cons_self a l)
    by_cases hp : p a = true
    · have hq : ¬ q a = true := fun hq => hda ⟨hp, hq⟩
      have hpr : pr a = true := ha.mpr (Or.inl hp)
      rw [if_pos hpr, if_pos hp, if_neg hq]
      omega
    · by_cases hq : q a = true
      · have hpr : pr a = true := ha.mpr (Or.inr hq)
        rw [if_pos hpr, if_neg hp, if_pos hq]
        omega
      · have hpr : ¬ pr a = true := fun hpr => (ha.mp hpr).elim hp hq
        rw [if_neg hpr, if_neg hp, if_neg hq]
        omega

lemma killCount_cons (e : Explosion) (es : List Explosion) (rk : List Rocket) :
    rk.countP (fun r => r.active && !(applyHitsOne (e :: es) r).active) =
      rk.countP (fun r => decide (r.active = true ∧ rocketHit e r)) +
        (rk.map (hitMap e)).countP (fun r => r.active && !(applyHitsOne es r).active) := by
  rw [List.countP_map]
  apply countP_split
  · intro r _
    simp only [Function.comp_apply]
    by_cases hc : r.active = true ∧ rocketHit e r
    · rw [applyHitsOne_cons, hitMap_pos e r hc, applyHitsOne_inactive es _ rfl]
      simp [hc, hc.1]
    · rw [applyHitsOne_cons, hitMap_neg e r hc]
      simp [hc]
  · intro r _
    rintro ⟨hp, hq⟩
    simp only [decide_eq_true_eq] at hp
    rw [Function.comp_apply, hitMap_pos e r hp] at hq
    simp at hq

/-! ## Lemmas: the explosion pass -/

lemma collideRockets_fst (e : Explosion) (rs : List Rocket) (sc : ℤ) :
    (collideRockets e rs sc).1 = rs.map (hitMap e) := by
  induction rs generalizing sc with
  | nil => rfl
  | cons r rs ih =>
    simp only [collideRockets, List.map_cons]
    by_cases hc : r.active = true ∧ rocketHit e r
    · rw [if_pos hc, hitMap_pos e r hc]
      simp [ih]
    · rw [if_neg hc, hitMap_neg e r hc]
      simp [ih]

lemma collideRockets_score (e : Explosion) (rs : List Rocket) (sc : ℤ) :
    (collideRockets e rs sc).2.1 = sc + POINTS_PER_KILL *
      ((rs.countP (fun r => decide (r.active = true ∧ rocketHit e r)) : ℕ) : ℤ) := by
  induction rs generalizing sc with
  | nil => simp [collideRockets]
  | cons r rs ih =>
    simp only [collideRockets, List.countP_cons]
    by_cases hc : r.active = true ∧ rocketHit e r
    · rw [if_pos hc]
      simp only [ih, decide_eq_true hc, if_true]
      push_cast
      ring
    · rw [if_neg hc]
      simp only [ih, decide_eq_false hc, if_false]
      push_cast
      ring

lemma collideRockets_chains (e : Explosion) (rs : List Rocket) (sc : ℤ) :
    (collideRockets e rs sc).2.2 =
      (rs.filter (fun r => decide (r.active = true ∧ rocketHit e r))).map chainExplosion := by
  induction rs generalizing sc with
  | nil => rfl
  | cons r rs ih =>
    simp only [collideRockets, List.filter_cons]
    by_cases hc : r.active = true ∧ rocketHit e r
    · rw [if_pos hc]
      simp only [decide_eq_true hc, if_true, List.map_cons]
      simp [ih]
    · rw [if_neg hc]
      simp only [decide_eq_false hc, if_false]
      simp [ih]

lemma updateExplosions_fst (dt : ℚ) (L : List Explosion) (rk : List Rocket) (sc : ℤ) :
    (updateExplosions dt L rk sc).1 = L.map (updateExplosionRadius dt) := by
  induction L generalizing rk sc with
  | nil => rfl
  | cons e L ih =>
    simp only [updateExplosions, List.map_cons]
    simp [ih]

lemma updateExplosions_rockets (dt : ℚ) (L : List Explosion) (rk : List Rocket) (sc : ℤ) :
    (updateExplosions dt L rk sc).2.1 =
      rk.map (applyHitsOne (L.map (updateExplosionRadius dt))) := by
  induction L generalizing rk sc with
  | nil =>
    rw [List.map_nil,
      show (applyHitsOne []) = (id : Rocket → Rocket) from funext applyHitsOne_nil]
    simp [updateExplosions]
  | cons e L ih =>
    simp only [updateExplosions, List.map_cons]
    rw [collideRockets_fst, ih, List.map_map]
    rfl

lemma updateExplosions_score (dt : ℚ) (L : List Explosion) (rk : List Rocket) (sc : ℤ) :
    (updateExplosions dt L rk sc).2.2.1 = sc + POINTS_PER_KILL *
      ((rk.countP (fun r => r.active &&
        !(applyHitsOne (L.map (updateExplosionRadius dt)) r).active) : ℕ) : ℤ) := by
  induction L generalizing rk sc with
  | nil =>
    simp [updateExplosions, applyHitsOne]
  | cons e L ih =>
    simp only [updateExplosions]
    rw [collideRockets_fst, collideRockets_score, ih, List.map_cons, killCount_cons]
    push_cast
    ring

lemma updateExplosions_chains_len (dt : ℚ) (L : List Explosion) (rk : List Rocket) (sc : ℤ) :
    (updateExplosions dt L rk sc).2.2.2.length =
      rk.countP (fun r => r.active &&
        !(applyHitsOne (L.map (updateExplosionRadius dt)) r).active) := by
  induction L generalizing rk sc with
  | nil =>
    simp [updateExplosions, applyHitsOne]
  | cons e L ih =>
    simp only [updateExplosions]
    rw [List.map_cons, killCount_cons]
    simp only [List.length_append, collideRockets_chains, collideRockets_fst,
      List.length_map, ih, List.countP_eq_length_filter]

lemma updateExplosions_chains_mem (dt : ℚ) (L : List Explosion) (rk : List Rocket) (sc : ℤ) :
    ∀ chE ∈ (updateExplosions dt L rk sc).2.2.2,
      chE.radius = 0 ∧ chE.maxRadius = 40 ∧ chE.growing = true ∧ chE.active = true ∧
      ∃ r ∈ rk, chE.x = r.x ∧ chE.y = r.y := by
  induction L generalizing rk sc with
  | nil =>
    intro chE hch
    simp [updateExplosions] at hch
  | cons e L ih =>
    intro chE hch
    simp only [updateExplosions] at hch
    rw [collideRockets_chains, collideRockets_fst] at hch
    rcases List.mem_append.mp hch with h | h
    · obtain ⟨r0, hr0, rfl⟩ := List.mem_map.mp h
      have hr0m := (List.mem_filter.mp hr0).1
      exact ⟨rfl, rfl, rfl, rfl, r0, hr0m, rfl, rfl⟩
    · obtain ⟨h1, h2, h3, h4, r1, hr1, hx, hy⟩ := ih (rk.map (hitMap (updateExplosionRadius dt e))) _ chE h
      obtain ⟨r0, hr0, rfl⟩ := List.mem_map.mp hr1
      exact ⟨h1, h2, h3, h4, r0, hr0, by rw [hx, hitMap_x], by rw [hy, hitMap_y]⟩

/-! ## Lemmas: rocket and missile kinematics -/

lemma stepRocket_progress (dt : ℚ) (r : Rocket) :
    (stepRocket dt r).progress = r.progress + r.speed * (dt / 16) := by
  simp only [stepRocket]
  split <;> rfl

lemma stepRocket_x (dt : ℚ) (r : Rocket) :
    (stepRocket dt r).x = r.startX + (r.targetX - r.startX) * (stepRocket dt r).progress := by
  simp only [stepRocket]
  split <;> rfl

lemma stepRocket_y (dt : ℚ) (r : Rocket) :
    (stepRocket dt r).y = r.startY + (r.targetY - r.startY) * (stepRocket dt r).progress := by
  simp only [stepRocket]
  split <;> rfl

lemma stepRocket_active_of_ge (dt : ℚ) (r : Rocket)
    (h : 1 ≤ r.progress + r.speed * (dt / 16)) : (stepRocket dt r).active = false := by
  simp only [stepRocket]
  rw [if_pos (show 1 ≤ (advanceRocket dt r).progress from h)]

lemma stepRocket_active_of_lt (dt : ℚ) (r : Rocket)
    (h : r.progress + r.speed * (dt / 16) < 1) : (stepRocket dt r).active = r.active := by
  simp only [stepRocket]
  rw [if_neg (show ¬ 1 ≤ (advanceRocket dt r).progress from not_le.mpr h)]
  rfl

lemma stepMissile_progress (dt : ℚ) (m : Missile) :
    (stepMissile dt m).progress = m.progress + m.speed * (dt / 16) := by
  simp only [stepMissile]
  split <;> rfl

lemma stepMissile_x (dt : ℚ) (m : Missile) :
    (stepMissile dt m).x = m.startX + (m.targetX - m.startX) * (stepMissile dt m).progress := by
  simp only [stepMissile]
  split <;> rfl

lemma stepMissile_y (dt : ℚ) (m : Missile) :
    (stepMissile dt m).y = m.startY + (m.targetY - m.startY) * (stepMissile dt m).progress := by
  simp only [stepMissile]
  split <;> rfl

lemma stepMissile_active_of_ge (dt : ℚ) (m : Missile)
    (h : 1 ≤ m.progress + m.speed * (dt / 16)) : (stepMissile dt m).active = false := by
  simp only [stepMissile]
  rw [if_pos (show 1 ≤ (advanceMissile dt m).progress from h)]

lemma stepMissile_active_of_lt (dt : ℚ) (m : Missile)
    (h : m.progress + m.speed * (dt / 16) < 1) : (stepMissile dt m).active = m.active := by
  simp only [stepMissile]
  rw [if_neg (show ¬ 1 ≤ (advanceMissile dt m).progress from not_le.mpr h)]
  rfl

lemma updateRockets_fst (dt : ℚ) (rs : List Rocket) (cs : List City)
    (ts : List Turret) (es : List Explosion) :
    (updateRockets dt rs cs ts es).1 = rs.map (stepRocket dt) := by
  induction rs generalizing cs ts es with
  | nil => rfl
  | cons r rs ih =>
    simp only [updateRockets, List.map_cons]
    by_cases hp : 1 ≤ (advanceRocket dt r).progress
    · rw [if_pos hp]
      simp only [stepRocket]
      rw [if_pos hp]
      simp [ih]
    · rw [if_neg hp]
      simp only [stepRocket]
      rw [if_neg hp]
      simp [ih]

lemma updateRockets_explosions (dt : ℚ) (rs : List Rocket) (cs : List City)
    (ts : List Turret) (es : List Explosion) :
    (updateRockets dt rs cs ts es).2.2.2 = es ++
      (rs.filter (fun r => decide (1 ≤ (advanceRocket dt r).progress))).map
        (fun r => impactExplosion (advanceRocket dt r)) := by
  induction rs generalizing cs ts es with
  | nil => simp [updateRockets]
  | cons r rs ih =>
    simp only [updateRockets, List.filter_cons]
    by_cases hp : 1 ≤ (advanceRocket dt r).progress
    · rw [if_pos hp]
      simp only [decide_eq_true hp, if_true, List.map_cons]
      rw [ih]
      simp
    · rw [if_neg hp]
      simp only [decide_eq_false hp, if_false]
      exact ih cs ts es

lemma updateMissiles_fst (dt : ℚ) (ms : List Missile) (es : List Explosion) :
    (updateMissiles dt ms es).1 = ms.map (stepMissile dt) := by
  induction ms generalizing es with
  | nil => rfl
  | cons m ms ih =>
    simp only [updateMissiles, List.map_cons]
    by_cases hp : 1 ≤ (advanceMissile dt m).progress
    · rw [if_pos hp]
      simp only [stepMissile]
      rw [if_pos hp]
      simp [ih]
    · rw [if_neg hp]
      simp only [stepMissile]
      rw [if_neg hp]
      simp [ih]

lemma updateMissiles_snd (dt : ℚ) (ms : List Missile) (es : List Explosion) :
    (updateMissiles dt ms es).2 = es ++
      (ms.filter (fun m => decide (1 ≤ (advanceMissile dt m).progress))).map
        missileExplosion := by
  induction ms generalizing es with
  | nil => simp [updateMissiles]
  | cons m ms ih =>
    simp only [updateMissiles, List.filter_cons]
    by_cases hp : 1 ≤ (advanceMissile dt m).progress
    · rw [if_pos hp]
      simp only [decide_eq_true hp, if_true, List.map_cons]
      rw [ih]
      simp only [List.append_assoc, List.singleton_append]
      rfl
    · rw [if_neg hp]
      simp only [decide_eq_false hp, if_false]
      exact ih es

/-! ## Lemmas: impact target marking -/

lemma markCityAt_first (tx ty : ℚ) (l1 l2 : List City) (c : City)
    (h1 : ∀ c2 ∈ l1, ¬ (c2.x = tx ∧ c2.y = ty)) (hc : c.x = tx ∧ c.y = ty) :
    markCityAt tx ty (l1 ++ c :: l2) = l1 ++ { c with destroyed := true } :: l2 := by
  induction l1 with
  | nil =>
    simp only [List.nil_append, markCityAt]
    rw [if_pos hc]
  | cons a l1 ih =>
    have ha := h1 a (List.mem_cons_self a l1)
    simp only [List.cons_append, markCityAt, List.append_eq]
    rw [if_neg ha, ih (fun c2 hm => h1 c2 (List.mem_cons_of_mem a hm))]

lemma markCityAt_no_match (tx ty : ℚ) (l : List City)
    (h : ∀ c ∈ l, ¬ (c.x = tx ∧ c.y = ty)) : markCityAt tx ty l = l := by
  induction l with
  | nil => rfl
  | cons a l ih =>
    simp only [markCityAt]
    rw [if_neg (h a (List.mem_cons_self a l)),
      ih (fun c2 hm => h c2 (List.mem_cons_of_mem a hm))]

lemma city_destroy_idem (c : City) (h : c.destroyed = true) :
    ({ c with destroyed := true } : City) = c := by
  cases c
  simp_all

lemma markTurretAt_first (tx ty : ℚ) (l1 l2 : List Turret) (t : Turret)
    (h1 : ∀ t2 ∈ l1, ¬ (t2.x = tx ∧ t2.y = ty)) (ht : t.x = tx ∧ t.y = ty) :
    markTurretAt tx ty (l1 ++ t :: l2) = l1 ++ { t with destroyed := true } :: l2 := by
  induction l1 with
  | nil =>
    simp only [List.nil_append, markTurretAt]
    rw [if_pos ht]
  | cons a l1 ih =>
    have ha := h1 a (List.mem_cons_self a l1)
    simp only [List.cons_append, markTurretAt, List.append_eq]
    rw [if_neg ha, ih (fun t2 hm => h1 t2 (List.mem_cons_of_mem a hm))]

lemma markTurretAt_no_match (tx ty : ℚ) (l : List Turret)
    (h : ∀ t ∈ l, ¬ (t.x = tx ∧ t.y = ty)) : markTurretAt tx ty l = l := by
  induction l with
  | nil => rfl
  | cons a l ih =>
    simp only [markTurretAt]
    rw [if_neg (h a (List.mem_cons_self a l)),
      ih (fun t2 hm => h t2 (List.mem_cons_of_mem a hm))]

lemma turret_destroy_idem (t : Turret) (h : t.destroyed = true) :
    ({ t with destroyed := true } : Turret) = t := by
  cases t
  simp_all

/-! ## Lemmas: the explosion radius update -/

lemma updateExplosionRadius_grow (dt : ℚ) (e : Explosion) (h : e.growing = true) :
    (updateExplosionRadius dt e).radius = e.radius + 2 * (dt / 16) ∧
    ((updateExplosionRadius dt e).growing = true →
      (updateExplosionRadius dt e).radius < e.maxRadius) ∧
    (updateExplosionRadius dt e).active = e.active := by
  unfold updateExplosionRadius
  rw [if_pos h]
  by_cases h2 : e.radius + 2 * (dt / 16) ≥ e.maxRadius
  · rw [if_pos h2]
    exact ⟨rfl, fun hg => absurd hg (by simp), rfl⟩
  · rw [if_neg h2]
    exact ⟨rfl, fun _ => lt_of_not_ge h2, rfl⟩

lemma updateExplosionRadius_shrink (dt : ℚ) (e : Explosion) (h : e.growing = false) :
    (updateExplosionRadius dt e).radius = e.radius - 1 * (dt / 16) ∧
    ((updateExplosionRadius dt e).radius ≤ 0 →
      (updateExplosionRadius dt e).active = false) ∧
    (0 < (updateExplosionRadius dt e).radius →
      (updateExplosionRadius dt e).active = e.active) := by
  unfold updateExplosionRadius
  rw [if_neg (by simp [h])]
  by_cases h2 : e.radius - 1 * (dt / 16) ≤ 0
  · rw [if_pos h2]
    exact ⟨rfl, fun _ => rfl, fun hpos => absurd h2 (not_le.mpr hpos)⟩
  · rw [if_neg h2]
    exact ⟨rfl, fun hle => absurd hle h2, fun _ => rfl⟩

lemma updateExplosionRadius_nonneg (dt : ℚ) (e : Explosion) (hdt : 0 ≤ dt)
    (hr : 0 ≤ e.radius) (ha : (updateExplosionRadius dt e).active = true) :
    0 ≤ (updateExplosionRadius dt e).radius := by
  cases hg : e.growing with
  | false =>
    obtain ⟨heq, himp, -⟩ := updateExplosionRadius_shrink dt e hg
    by_contra hneg
    push_neg at hneg
    rw [himp (le_of_lt hneg)] at ha
    exact Bool.false_ne_true ha
  | true =>
    obtain ⟨heq, -, -⟩ := updateExplosionRadius_grow dt e hg
    rw [heq]
    have h2 : 0 ≤ 2 * (dt / 16) := by positivity
    linarith

/-! ## Lemmas: projections through the status check and the phases -/

lemma winLossCheck_rockets (s : GameSession) : (winLossCheck s).rockets = s.rockets := by
  unfold winLossCheck
  by_cases hw : WIN_SCORE ≤ s.score
  · simp only [if_pos hw]
    split <;> rfl
  · simp only [if_neg hw]
    split <;> rfl

lemma winLossCheck_missiles (s : GameSession) : (winLossCheck s).missiles = s.missiles := by
  unfold winLossCheck
  by_cases hw : WIN_SCORE ≤ s.score
  · simp only [if_pos hw]
    split <;> rfl
  · simp only [if_neg hw]
    split <;> rfl

lemma winLossCheck_explosions (s : GameSession) : (winLossCheck s).explosions = s.explosions := by
  unfold winLossCheck
  by_cases hw : WIN_SCORE ≤ s.score
  · simp only [if_pos hw]
    split <;> rfl
  · simp only [if_neg hw]
    split <;> rfl

lemma spawnPhase_explosions (dt : ℚ) (ch : SpawnChoice) (s : GameSession) :
    (spawnPhase dt ch s).explosions = s.explosions := by
  simp only [spawnPhase]
  split
  · rfl
  · split <;> split <;>
      first
      | rfl
      | exact (spawnRocket_keeps ch _).2.2.2.2.1

/-- C3: for every explosion, with a positive frame time the radius strictly
increases while the growing flag is set and growth stops at maxRadius (the
flag survives the update only while the radius is still below maxRadius);
once shrinking, the radius strictly decreases and the explosion is
deactivated as soon as the radius is ≤ 0; an explosion that stays active
keeps a nonnegative radius, and every explosion held by the session after a
tick has nonnegative radius. -/
theorem c3_explosion_radius (dt : ℚ) (e : Explosion) (ch : SpawnChoice)
    (s : GameSession) (hdt : 0 < dt) (hr : 0 ≤ e.radius)
    (hall : ∀ x ∈ s.explosions, 0 ≤ x.radius) :
    ((updateExplosionRadius dt e).active = true →
      0 ≤ (updateExplosionRadius dt e).radius) ∧
    (e.growing = true → e.radius < (updateExplosionRadius dt e).radius ∧
      ((updateExplosionRadius dt e).growing = true →
        (updateExplosionRadius dt e).radius < e.maxRadius)) ∧
    (e.growing = false → (updateExplosionRadius dt e).radius < e.radius ∧
      ((updateExplosionRadius dt e).radius ≤ 0 →
        (updateExplosionRadius dt e).active = false)) ∧
    (∀ x ∈ (tick dt ch s).explosions, 0 ≤ x.radius) := by
  refine ⟨fun ha => updateExplosionRadius_nonneg dt e (le_of_lt hdt) hr ha, ?_, ?_, ?_⟩
  · intro hg
    obtain ⟨heq, hbound, -⟩ := updateExplosionRadius_grow dt e hg
    have h2 : 0 < 2 * (dt / 16) := by positivity
    exact ⟨by rw [heq]; linarith, hbound⟩
  · intro hg
    obtain ⟨heq, hde, -⟩ := updateExplosionRadius_shrink dt e hg
    have h2 : 0 < 1 * (dt / 16) := by positivity
    exact ⟨by rw [heq]; linarith, hde⟩
  · intro x hx
    unfold tick at hx
    rw [winLossCheck_explosions] at hx
    set s1 := spawnPhase dt ch s with hs1
    have hphys : (physicsPhase dt s1).explosions =
        ((updateExplosions dt
            (updateMissiles dt s1.missiles
              (updateRockets dt s1.rockets s1.cities s1.turrets s1.explosions).2.2.2).2
            (updateRockets dt s1.rockets s1.cities s1.turrets s1.explosions).1
            s1.score).1 ++
          (updateExplosions dt
            (updateMissiles dt s1.missiles
              (updateRockets dt s1.rockets s1.cities s1.turrets s1.explosions).2.2.2).2
            (updateRockets dt s1.rockets s1.cities s1.turrets s1.explosions).1
            s1.score).2.2.2).filter (fun e2 => e2.active) := rfl
    rw [hphys] at hx
    obtain ⟨hmem, hact⟩ := List.mem_filter.mp hx
    rcases List.mem_append.mp hmem with hmem1 | hmem2
    · rw [updateExplosions_fst] at hmem1
      obtain ⟨e0, he0, rfl⟩ := List.mem_map.mp hmem1
      refine updateExplosionRadius_nonneg dt e0 (le_of_lt hdt) ?_ hact
      rw [updateMissiles_snd, updateRockets_explosions] at he0
      rcases List.mem_append.mp he0 with h1 | h2
      · rcases List.mem_append.mp h1 with h3 | h4
        · rw [hs1, spawnPhase_explosions] at h3
          exact hall e0 h3
        · obtain ⟨r0, -, rfl⟩ := List.mem_map.mp h4
          norm_num [impactExplosion]
      · obtain ⟨m0, -, rfl⟩ := List.mem_map.mp h2
        norm_num [missileExplosion]
    · rw [(updateExplosions_chains_mem dt _ _ _ x hmem2).1]

theorem c3_explosion_radius_witness :
    (0 : ℚ) < 16 ∧
    (0 : ℚ) ≤ (⟨0, 0, 10, 30, true, true⟩ : Explosion).radius ∧
    0 ≤ (updateExplosionRadius 16 (⟨0, 0, 10, 30, true, true⟩ : Explosion)).radius :=
  ⟨by norm_num, by norm_num,
   (c3_explosion_radius 16 ⟨0, 0, 10, 30, true, true⟩ chDefault sessionSimul
      (by norm_num) (by norm_num)
      (by simp only [sessionSimul, List.mem_singleton]; intro x hx; rw [hx]; norm_num)).1
    (by norm_num [updateExplosionRadius])⟩

/-- C4: a rocket whose progress reaches ≥ 1 on a tick is deactivated; the
first city, and the first turret, in roster order whose stored coordinates
are exactly the rocket target coordinates is marked destroyed, and marking
an already destroyed target changes nothing (idempotent); rosters without a
coordinate match are unchanged; exactly one new explosion is appended,
centered at the rocket position at impact, with maxRadius 30 — strictly
smaller than the maxRadius 50 of every interceptor-spawned explosion. -/
theorem c4_impact (dt : ℚ) (r : Rocket) (cs : List City) (ts : List Turret)
    (es : List Explosion) (hp : 1 ≤ (advanceRocket dt r).progress) :
    (updateRockets dt [r] cs ts es).1 = [{ advanceRocket dt r with active := false }] ∧
    (∀ (l1 l2 : List City) (c : City), cs = l1 ++ c :: l2 →
      (c.x = r.targetX ∧ c.y = r.targetY) →
      (∀ c2 ∈ l1, ¬ (c2.x = r.targetX ∧ c2.y = r.targetY)) →
      (updateRockets dt [r] cs ts es).2.1 = l1 ++ { c with destroyed := true } :: l2 ∧
      (c.destroyed = true → (updateRockets dt [r] cs ts es).2.1 = cs)) ∧
    ((∀ c ∈ cs, ¬ (c.x = r.targetX ∧ c.y = r.targetY)) →
      (updateRockets dt [r] cs ts es).2.1 = cs) ∧
    (∀ (m1 m2 : List Turret) (t : Turret), ts = m1 ++ t :: m2 →
      (t.x = r.targetX ∧ t.y = r.targetY) →
      (∀ t2 ∈ m1, ¬ (t2.x = r.targetX ∧ t2.y = r.targetY)) →
      (updateRockets dt [r] cs ts es).2.2.1 = m1 ++ { t with destroyed := true } :: m2 ∧
      (t.destroyed = true → (updateRockets dt [r] cs ts es).2.2.1 = ts)) ∧
    ((∀ t ∈ ts, ¬ (t.x = r.targetX ∧ t.y = r.targetY)) →
      (updateRockets dt [r] cs ts es).2.2.1 = ts) ∧
    (updateRockets dt [r] cs ts es).2.2.2 = es ++ [impactExplosion (advanceRocket dt r)] ∧
    (impactExplosion (advanceRocket dt r)).x = (advanceRocket dt r).x ∧
    (impactExplosion (advanceRocket dt r)).y = (advanceRocket dt r).y ∧
    (impactExplosion (advanceRocket dt r)).maxRadius = 30 ∧
    (∀ m : Missile, (impactExplosion (advanceRocket dt r)).maxRadius <
      (missileExplosion m).maxRadius) := by
  have hstep : updateRockets dt [r] cs ts es =
      ([{ advanceRocket dt r with active := false }],
        markCityAt r.targetX r.targetY cs,
        markTurretAt r.targetX r.targetY ts,
        es ++ [impactExplosion (advanceRocket dt r)]) := by
    simp only [updateRockets]
    rw [if_pos hp]
    rfl
  refine ⟨by rw [hstep], ?_, ?_, ?_, ?_, by rw [hstep], rfl, rfl, rfl, ?_⟩
  · intro l1 l2 c hsplit hmatch hfirst
    subst hsplit
    constructor
    · rw [hstep]
      exact markCityAt_first r.targetX r.targetY l1 l2 c hfirst hmatch
    · intro hd
      rw [hstep]
      have h1 := markCityAt_first r.targetX r.targetY l1 l2 c hfirst hmatch
      rw [city_destroy_idem c hd] at h1
      exact h1
  · intro h
    rw [hstep]
    exact markCityAt_no_match r.targetX r.targetY cs h
  · intro m1 m2 t hsplit hmatch hfirst
    subst hsplit
    constructor
    · rw [hstep]
      exact markTurretAt_first r.targetX r.targetY m1 m2 t hfirst hmatch
    · intro hd
      rw [hstep]
      have h1 := markTurretAt_first r.targetX r.targetY m1 m2 t hfirst hmatch
      rw [turret_destroy_idem t hd] at h1
      exact h1
  · intro h
    rw [hstep]
    exact markTurretAt_no_match r.targetX r.targetY ts h
  · intro m
    norm_num [impactExplosion, missileExplosion]

theorem c4_impact_witness :
    1 ≤ (advanceRocket 16 rocketCity).progress ∧
    (updateRockets 16 [rocketCity] initCities TURRET_CONFIGS []).2.1 =
      [] ++ (⟨0, 135, 580, true⟩ : City) ::
        [⟨1, 310, 580, false⟩, ⟨2, 490, 580, false⟩, ⟨3, 665, 580, false⟩] := by
  have hp : 1 ≤ (advanceRocket 16 rocketCity).progress := by
    norm_num [advanceRocket, rocketCity]
  refine ⟨hp, ?_⟩
  have h := ((c4_impact 16 rocketCity initCities TURRET_CONFIGS [] hp).2.1
    [] [⟨1, 310, 580, false⟩, ⟨2, 490, 580, false⟩, ⟨3, 665, 580, false⟩]
    ⟨0, 135, 580, false⟩
    (by norm_num [initCities, GAME_HEIGHT])
    (by norm_num [rocketCity])
    (by simp)).1
  simpa using h

/-- C5: on every tick each rocket and missile advances its progress by
speed × (dt / 16), its position is recomputed as the linear interpolation
between its stored start and target at the new progress (so with
nonnegative dt and speed the progress never decreases); an entity whose new
progress is ≥ 1 is deactivated, with exactly one terminal explosion per
crossing entity (at the rocket impact position, resp. at the missile stored
target); and after a tick every surviving rocket and missile has
progress < 1, so the terminal effect of a crossing fires exactly once. -/
theorem c5_kinematics (dt : ℚ) (ch : SpawnChoice) (s : GameSession) (hdt : 0 ≤ dt) :
    (∀ (rs : List Rocket) (cs : List City) (ts : List Turret) (es : List Explosion),
      (updateRockets dt rs cs ts es).1 = rs.map (stepRocket dt)) ∧
    (∀ r : Rocket,
      (stepRocket dt r).progress = r.progress + r.speed * (dt / 16) ∧
      (stepRocket dt r).x = r.startX + (r.targetX - r.startX) * (stepRocket dt r).progress ∧
      (stepRocket dt r).y = r.startY + (r.targetY - r.startY) * (stepRocket dt r).progress ∧
      (0 ≤ r.speed → r.progress ≤ (stepRocket dt r).progress) ∧
      (1 ≤ (stepRocket dt r).progress → (stepRocket dt r).active = false) ∧
      ((stepRocket dt r).progress < 1 → (stepRocket dt r).active = r.active)) ∧
    (∀ (rs : List Rocket) (cs : List City) (ts : List Turret) (es : List Explosion),
      (updateRockets dt rs cs ts es).2.2.2 = es ++
        (rs.filter (fun r => decide (1 ≤ (advanceRocket dt r).progress))).map
          (fun r => impactExplosion (advanceRocket dt r))) ∧
    (∀ (ms : List Missile) (es : List Explosion),
      (updateMissiles dt ms es).1 = ms.map (stepMissile dt)) ∧
    (∀ m : Missile,
      (stepMissile dt m).progress = m.progress + m.speed * (dt / 16) ∧
      (stepMissile dt m).x = m.startX + (m.targetX - m.startX) * (stepMissile dt m).progress ∧
      (stepMissile dt m).y = m.startY + (m.targetY - m.startY) * (stepMissile dt m).progress ∧
      (0 ≤ m.speed → m.progress ≤ (stepMissile dt m).progress) ∧
      (1 ≤ (stepMissile dt m).progress → (stepMissile dt m).active = false) ∧
      ((stepMissile dt m).progress < 1 → (stepMissile dt m).active = m.active)) ∧
    (∀ (ms : List Missile) (es : List Explosion),
      (updateMissiles dt ms es).2 = es ++
        (ms.filter (fun m => decide (1 ≤ (advanceMissile dt m).progress))).map
          missileExplosion) ∧
    (∀ m : Missile, (missileExplosion m).x = m.targetX ∧
      (missileExplosion m).y = m.targetY) ∧
    (∀ r ∈ (tick dt ch s).rockets, r.progress < 1) ∧
    (∀ m ∈ (tick dt ch s).missiles, m.progress < 1) := by
  refine ⟨updateRockets_fst dt, ?_, updateRockets_explosions dt, updateMissiles_fst dt,
    ?_, updateMissiles_snd dt, fun m => ⟨rfl, rfl⟩, ?_, ?_⟩
  · intro r
    refine ⟨stepRocket_progress dt r, stepRocket_x dt r, stepRocket_y dt r, ?_, ?_, ?_⟩
    · intro hsp
      rw [stepRocket_progress]
      have h2 : 0 ≤ r.speed * (dt / 16) := mul_nonneg hsp (div_nonneg hdt (by norm_num))
      linarith
    · intro h1
      rw [stepRocket_progress] at h1
      exact stepRocket_active_of_ge dt r h1
    · intro h1
      rw [stepRocket_progress] at h1
      exact stepRocket_active_of_lt dt r h1
  · intro m
    refine ⟨stepMissile_progress dt m, stepMissile_x dt m, stepMissile_y dt m, ?_, ?_, ?_⟩
    · intro hsp
      rw [stepMissile_progress]
      have h2 : 0 ≤ m.speed * (dt / 16) := mul_nonneg hsp (div_nonneg hdt (by norm_num))
      linarith
    · intro h1
      rw [stepMissile_progress] at h1
      exact stepMissile_active_of_ge dt m h1
    · intro h1
      rw [stepMissile_progress] at h1
      exact stepMissile_active_of_lt dt m h1
  · intro r hr
    unfold tick at hr
    rw [winLossCheck_rockets] at hr
    set s1 := spawnPhase dt ch s with hs1
    have hphys : (physicsPhase dt s1).rockets =
        ((updateExplosions dt
            (updateMissiles dt s1.missiles
              (updateRockets dt s1.rockets s1.cities s1.turrets s1.explosions).2.2.2).2
            (updateRockets dt s1.rockets s1.cities s1.turrets s1.explosions).1
            s1.score).2.1).filter (fun r2 => r2.active) := rfl
    rw [hphys, updateExplosions_rockets, updateRockets_fst] at hr
    obtain ⟨hmem, hact⟩ := List.mem_filter.mp hr
    rw [List.map_map] at hmem
    obtain ⟨r0, hr0, rfl⟩ := List.mem_map.mp hmem
    simp only [Function.comp_apply] at hact ⊢
    rw [applyHitsOne_progress]
    have hsact : (stepRocket dt r0).active = true :=
      applyHitsOne_active_mono _ _ hact
    by_contra hge
    push_neg at hge
    rw [stepRocket_progress] at hge
    rw [stepRocket_active_of_ge dt r0 hge] at hsact
    exact Bool.false_ne_true hsact
  · intro m hm
    unfold tick at hm
    rw [winLossCheck_missiles] at hm
    set s1 := spawnPhase dt ch s with hs1
    have hphys : (physicsPhase dt s1).missiles =
        ((updateMissiles dt s1.missiles
            (updateRockets dt s1.rockets s1.cities s1.turrets s1.explosions).2.2.2).1).filter
          (fun m2 => m2.active) := rfl
    rw [hphys, updateMissiles_fst] at hm
    obtain ⟨hmem, hact⟩ := List.mem_filter.mp hm
    obtain ⟨m0, hm0, rfl⟩ := List.mem_map.mp hmem
    by_contra hge
    push_neg at hge
    have hge2 := hge
    rw [stepMissile_progress] at hge2
    rw [stepMissile_active_of_ge dt m0 hge2] at hact
    exact Bool.false_ne_true hact

theorem c5_kinematics_witness :
    (0 : ℚ) ≤ 16 ∧
    (updateRockets 16 [rocketB] initCities TURRET_CONFIGS []).1 =
      [rocketB].map (stepRocket 16) ∧
    (stepMissile 16 (mkMissile ⟨1, 225, 570, 20, 20, false⟩ 300 200)).progress =
      (mkMissile ⟨1, 225, 570, 20, 20, false⟩ 300 200).progress +
        (mkMissile ⟨1, 225, 570, 20, 20, false⟩ 300 200).speed * (16 / 16) :=
  ⟨by norm_num,
   (c5_kinematics 16 chDefault sessionSimul (by norm_num)).1 [rocketB] initCities
     TURRET_CONFIGS [],
   ((c5_kinematics 16 chDefault sessionSimul (by norm_num)).2.2.2.2.1
     (mkMissile ⟨1, 225, 570, 20, 20, false⟩ 300 200)).1⟩

/-- C8: in the explosion pass of a tick, each rocket is either untouched or
exactly deactivated (never otherwise modified); after the pass no still
active rocket lies strictly inside any radius-updated explosion of the pass
(every active projectile strictly inside an explosion was marked inactive);
the score grows by exactly POINTS_PER_KILL per rocket deactivated in the
pass, and exactly one chain explosion per deactivated rocket is spawned,
with radius 0 and maxRadius 40, at the position of a rocket of the pass — 
so a projectile overlapped by several explosions in the same tick is
destroyed, scored and chained at most once. -/
theorem c8_explosion_collisions (dt : ℚ) (L : List Explosion) (rk : List Rocket) (sc : ℤ) :
    (updateExplosions dt L rk sc).2.1.length = rk.length ∧
    (updateExplosions dt L rk sc).2.1 =
      rk.map (applyHitsOne (L.map (updateExplosionRadius dt))) ∧
    (∀ r ∈ rk, applyHitsOne (L.map (updateExplosionRadius dt)) r = r ∨
      applyHitsOne (L.map (updateExplosionRadius dt)) r = { r with active := false }) ∧
    (∀ e ∈ (updateExplosions dt L rk sc).1, ∀ r2 ∈ (updateExplosions dt L rk sc).2.1,
      r2.active = true → ¬ rocketHit e r2) ∧
    (updateExplosions dt L rk sc).2.2.1 = sc + POINTS_PER_KILL *
      ((rk.countP (fun r => r.active &&
        !(applyHitsOne (L.map (updateExplosionRadius dt)) r).active) : ℕ) : ℤ) ∧
    (updateExplosions dt L rk sc).2.2.2.length =
      rk.countP (fun r => r.active &&
        !(applyHitsOne (L.map (updateExplosionRadius dt)) r).active) ∧
    (∀ chE ∈ (updateExplosions dt L rk sc).2.2.2,
      chE.radius = 0 ∧ chE.maxRadius = 40 ∧ ∃ r ∈ rk, chE.x = r.x ∧ chE.y = r.y) := by
  refine ⟨?_, updateExplosions_rockets dt L rk sc, ?_, ?_,
    updateExplosions_score dt L rk sc, updateExplosions_chains_len dt L rk sc, ?_⟩
  · rw [updateExplosions_rockets, List.length_map]
  · intro r _
    exact applyHitsOne_cases _ r
  · intro e he r2 hr2 hact
    rw [updateExplosions_fst] at he
    rw [updateExplosions_rockets] at hr2
    obtain ⟨r0, hr0, rfl⟩ := List.mem_map.mp hr2
    have hnohit := applyHitsOne_not_hit _ r0 hact e he
    unfold rocketHit at hnohit ⊢
    rw [applyHitsOne_x, applyHitsOne_y]
    exact hnohit
  · intro chE hch
    obtain ⟨h1, h2, -, -, hex⟩ := updateExplosions_chains_mem dt L rk sc chE hch
    exact ⟨h1, h2, hex⟩

theorem c8_explosion_collisions_witness :
    (updateExplosions 16 [⟨100, 102, 30, 50, true, true⟩] [rocketB] 0).2.2.1 =
      0 + POINTS_PER_KILL *
        (([rocketB].countP (fun r => r.active &&
          !(applyHitsOne ([⟨100, 102, 30, 50, true, true⟩].map
            (updateExplosionRadius 16)) r).active) : ℕ) : ℤ) ∧
    (applyHitsOne ([⟨100, 102, 30, 50, true, true⟩].map (updateExplosionRadius 16))
        rocketB = rocketB ∨
      applyHitsOne ([⟨100, 102, 30, 50, true, true⟩].map (updateExplosionRadius 16))
        rocketB = { rocketB with active := false }) :=
  ⟨(c8_explosion_collisions 16 [⟨100, 102, 30, 50, true, true⟩] [rocketB] 0).2.2.2.2.1,
   (c8_explosion_collisions 16 [⟨100, 102, 30, 50, true, true⟩] [rocketB] 0).2.2.1
     rocketB (by simp)⟩
